import Mathlib

/-!
Verification of the interface provisioning/teardown core of
`pkg/daemon/ovs.go` (kube-ovn CNI daemon).

The Go functions `configureNic`, `deleteNic`, `generateNicName`,
`configureHostNic` and `configureContainerNic` drive three external
systems: the kernel link subsystem (netlink), the network-namespace
subsystem, and the OVS control plane (`ovs-vsctl`).  We embed them as
state-passing functions over an explicit system state (kernel link table
across namespaces plus the OVS port table).  External calls that can fail
for reasons outside the program (kernel errors, `ovs-vsctl` failures,
namespace resolution) are modelled by an oracle `Env` that fixes the
outcome of each such call, together with the two parse oracles
(`net.ParseMAC`, `netlink.ParseAddr`), so every theorem quantifies over
all behaviours of the collaborators.  Each run also emits a trace of the
external effects it performs, used to state ordering and frame
properties.  A Go panic (the out-of-range string slice in
`generateNicName`) is modelled by `Option.none` at the top level.
-/

namespace Daemon

/-- A kernel network link (interface).  `netns = none` means the link
lives in the host namespace, `some p` that it was moved into the network
namespace identified by path `p`.  `idx` models the kernel ifindex (the
identity netlink handles operate on, stable across rename and namespace
moves); `pairId` models the veth pair relationship: the two ends of one
pair share it, and deleting either end removes every link of the pair.
`mac` is the hardware address (`none` until explicitly set), `up` the
administrative state, `addrs` the assigned addresses. -/
structure Link where
  idx : Nat
  name : String
  pairId : Nat
  netns : Option String
  mac : Option Nat
  up : Bool
  addrs : List Nat
deriving DecidableEq, Repr

/-- A port record in the OVS database: bridge it is attached to, port
name, and the `external_ids:iface-id` ownership tag. -/
structure OvsPort where
  bridge : String
  port : String
  ifaceId : String
deriving DecidableEq, Repr

/-- The external state the code mutates: the kernel link table (all
namespaces), the OVS port table, the set of existing network-namespace
paths, and a fresh-ifindex counter. -/
structure SysState where
  links : List Link
  ovsPorts : List OvsPort
  namespaces : List String
  nextIdx : Nat
deriving DecidableEq, Repr

/-- Outcome oracle for the external calls the code makes, plus the two
parse functions.  Each `...Fails` flag fixes whether the corresponding
kernel / ovs-vsctl / namespace call fails for an external reason;
`parseMAC` models `net.ParseMAC` and `parseAddr` models
`netlink.ParseAddr` (`none` = parse error). -/
structure Env where
  linkAddFails : Bool
  ovsAddPortFails : Bool
  setHostMacFails : Bool
  setHostUpFails : Bool
  getNSFails : Bool
  setNsFdFails : Bool
  enterNetnsFails : Bool
  renameFails : Bool
  addrAddFails : Bool
  setContMacFails : Bool
  setContUpFails : Bool
  ovsDelPortFails : Bool
  linkLookupFails : Bool
  linkDelFails : Bool
  parseMAC : String → Option Nat
  parseAddr : String → Option Nat

/-- One external effect performed by the code, in program order. -/
inductive Event where
  | linkAdd (hostName peerName : String)
  | linkDel (name : String)
  | ovsAddPort (bridge port ifaceId : String)
  | ovsDelPort (bridge port : String)
  | setHardwareAddr (idx : Nat) (mac : Nat)
  | setUp (idx : Nat)
  | setNsFd (idx : Nat) (netns : String)
  | setName (idx : Nat) (name : String)
  | addrAdd (idx : Nat) (addr : Nat)
deriving DecidableEq, Repr

/-- The error kinds of the spec's taxonomy, one per `return fmt.Errorf`
site of ovs.go. -/
inductive NicError where
  | vethCreateFailed
  | switchBindFailed
  | invalidMac
  | hostNicNotFound
  | hostSetMacFailed
  | hostSetUpFailed
  | netnsOpenFailed
  | containerNicNotFound
  | setNsFdFailed
  | enterNetnsFailed
  | renameFailed
  | invalidAddr
  | addrAddFailed
  | containerSetMacFailed
  | containerSetUpFailed
  | switchPortRemoveFailed
  | linkLookupFailed
  | linkDeleteFailed
deriving DecidableEq, Repr

/-- The spec's `InvalidAddress` error class: malformed mac or ip. -/
def NicError.isInvalidAddress : NicError → Bool
  | .invalidMac => true
  | .invalidAddr => true
  | _ => false

/-- `netlink.LinkByName` scoped to one namespace: the first link there
with the given name. -/
def findLink (links : List Link) (ns : Option String) (name : String) : Option Link :=
  links.find? (fun l => l.netns == ns && l.name == name)

/-- Apply a netlink mutation to the link with the given ifindex (netlink
setters address links by index, so they follow the link across rename and
namespace moves). -/
def updateLinks (links : List Link) (i : Nat) (f : Link → Link) : List Link :=
  links.map (fun l => if l.idx = i then f l else l)

/-- Kernel deletion of a veth pair: removing either end removes every
link sharing the pair id, in whatever namespace each end lives. -/
def delPair (links : List Link) (pid : Nat) : List Link :=
  links.filter (fun l => l.pairId != pid)

/-- `netlink.LinkDel` on a veth end addressed by host-namespace name (the
deferred rollback in `configureNic` deletes the `veth` handle, whose name
is the host nic name).  No-op when no such link exists, as the rollback
ignores the deletion error. -/
def linkDelByName (links : List Link) (name : String) : List Link :=
  match findLink links none name with
  | none => links
  | some l => delPair links l.pairId

/-- `generateNicName` of ovs.go: `containerID[0:12]` with the fixed role
suffixes `_h` (host end) and `_c` (container end).  The Go byte slice
panics when `containerID` has fewer than 12 characters; the panic is
modelled by `none`. -/
def generateNicName (containerID : String) : Option (String × String) :=
  if containerID.length < 12 then none
  else
    some (String.mk (containerID.data.take 12) ++ "_h",
          String.mk (containerID.data.take 12) ++ "_c")

/-- `configureHostNic` of ovs.go: look the host nic up by name in the
host namespace, set its hardware address, bring it up. -/
def configureHostNic (e : Env) (links : List Link) (tr : List Event)
    (nicName : String) (macAddr : Nat) :
    Except NicError Unit × List Link × List Event :=
  match findLink links none nicName with
  | none => (.error .hostNicNotFound, links, tr)
  | some hostLink =>
    if e.setHostMacFails then (.error .hostSetMacFailed, links, tr)
    else
      let links1 := updateLinks links hostLink.idx (fun l => { l with mac := some macAddr })
      let tr1 := tr ++ [.setHardwareAddr hostLink.idx macAddr]
      if e.setHostUpFails then (.error .hostSetUpFailed, links1, tr1)
      else
        (.ok (), updateLinks links1 hostLink.idx (fun l => { l with up := true }),
         tr1 ++ [.setUp hostLink.idx])

/-- `configureContainerNic` of ovs.go: look the container end up by name
in the host namespace, move it into the target namespace by fd, then
inside that namespace rename it to `eth0`, parse and add the address, set
the hardware address, and bring it up.  All netlink setters go through
the captured link handle (its ifindex), so they keep addressing the same
link after the move and the rename. -/
def configureContainerNic (e : Env) (links : List Link) (tr : List Event)
    (nicName ipAddr : String) (macaddr : Nat) (netns : String) :
    Except NicError Unit × List Link × List Event :=
  match findLink links none nicName with
  | none => (.error .containerNicNotFound, links, tr)
  | some containerLink =>
    if e.setNsFdFails then (.error .setNsFdFailed, links, tr)
    else
      let links1 := updateLinks links containerLink.idx (fun l => { l with netns := some netns })
      let tr1 := tr ++ [.setNsFd containerLink.idx netns]
      if e.enterNetnsFails then (.error .enterNetnsFailed, links1, tr1)
      else if e.renameFails then (.error .renameFailed, links1, tr1)
      else
        let links2 := updateLinks links1 containerLink.idx (fun l => { l with name := "eth0" })
        let tr2 := tr1 ++ [.setName containerLink.idx "eth0"]
        match e.parseAddr ipAddr with
        | none => (.error .invalidAddr, links2, tr2)
        | some addr =>
          if e.addrAddFails then (.error .addrAddFailed, links2, tr2)
          else
            let links3 := updateLinks links2 containerLink.idx
              (fun l => { l with addrs := l.addrs ++ [addr] })
            let tr3 := tr2 ++ [.addrAdd containerLink.idx addr]
            if e.setContMacFails then (.error .containerSetMacFailed, links3, tr3)
            else
              let links4 := updateLinks links3 containerLink.idx
                (fun l => { l with mac := some macaddr })
              let tr4 := tr3 ++ [.setHardwareAddr containerLink.idx macaddr]
              if e.setContUpFails then (.error .containerSetUpFailed, links4, tr4)
              else
                (.ok (), updateLinks links4 containerLink.idx (fun l => { l with up := true }),
                 tr4 ++ [.setUp containerLink.idx])

/-- The body of `configureNic` after name derivation, without the
deferred rollback: create the veth pair (`netlink.LinkAdd` fails if the
kernel reports an error or either name already exists in the host
namespace), bind the host end to `br-int` with the
`external_ids:iface-id=<podName>.<podNamespace>` tag, parse the mac,
configure the host nic, resolve the namespace, configure the container
nic. -/
def configureNicBody (e : Env) (s : SysState)
    (podName podNamespace netns hostNicName containerNicName mac ip : String) :
    Except NicError Unit × SysState × List Event :=
  if e.linkAddFails || (findLink s.links none hostNicName).isSome
      || (findLink s.links none containerNicName).isSome then
    (.error .vethCreateFailed, s, [])
  else
    let hostEnd : Link := ⟨s.nextIdx, hostNicName, s.nextIdx, none, none, false, []⟩
    let contEnd : Link := ⟨s.nextIdx + 1, containerNicName, s.nextIdx, none, none, false, []⟩
    let s1 : SysState :=
      { s with links := s.links ++ [hostEnd, contEnd], nextIdx := s.nextIdx + 2 }
    let tr1 : List Event := [.linkAdd hostNicName containerNicName]
    if e.ovsAddPortFails then (.error .switchBindFailed, s1, tr1)
    else
      let port : OvsPort := ⟨"br-int", hostNicName, podName ++ "." ++ podNamespace⟩
      let s2 := { s1 with ovsPorts := s1.ovsPorts ++ [port] }
      let tr2 := tr1 ++ [.ovsAddPort "br-int" hostNicName (podName ++ "." ++ podNamespace)]
      match e.parseMAC mac with
      | none => (.error .invalidMac, s2, tr2)
      | some macAddr =>
        match configureHostNic e s2.links tr2 hostNicName macAddr with
        | (.error k, links', tr') => (.error k, { s2 with links := links' }, tr')
        | (.ok _, links3, tr3) =>
          let s3 := { s2 with links := links3 }
          if e.getNSFails || !(s3.namespaces.contains netns) then
            (.error .netnsOpenFailed, s3, tr3)
          else
            match configureContainerNic e s3.links tr3 containerNicName ip macAddr netns with
            | (.error k, links', tr') => (.error k, { s3 with links := links' }, tr')
            | (.ok _, links4, tr4) => (.ok (), { s3 with links := links4 }, tr4)

/-- `configureNic` of ovs.go.  `none` models the Go panic of
`generateNicName` on a short container id.  The deferred
`netlink.LinkDel(&veth)` runs on every error return (every failing path
assigns the function-scoped `err`), deleting the pair before the error
is handed to the caller. -/
def configureNic (e : Env) (s : SysState)
    (podName podNamespace netns containerID mac ip : String) :
    Option (Except NicError Unit × SysState × List Event) :=
  match generateNicName containerID with
  | none => none
  | some (hostNicName, containerNicName) =>
    match configureNicBody e s podName podNamespace netns hostNicName containerNicName mac ip with
    | (.ok a, s', tr) => some (.ok a, s', tr)
    | (.error k, s', tr) =>
      some (.error k, { s' with links := linkDelByName s'.links hostNicName },
            tr ++ [.linkDel hostNicName])

/-- `deleteNic` of ovs.go: re-derive the host nic name (`none` models the
panic on a short container id), remove the OVS port with
`--if-exists del-port` (tolerant of absence, so absence never fails; the
flag models an external ovs-vsctl failure), look the host link up by name
(a `LinkNotFoundError` returns success quietly), and delete it (removing
the pair).  The `netns` parameter is accepted but never used. -/
def deleteNic (e : Env) (s : SysState) (netns containerID : String) :
    Option (Except NicError Unit × SysState × List Event) :=
  match generateNicName containerID with
  | none => none
  | some (hostNicName, _) =>
    if e.ovsDelPortFails then some (.error .switchPortRemoveFailed, s, [])
    else
      let remaining := s.ovsPorts.filter (fun p => !(p.bridge == "br-int" && p.port == hostNicName))
      let s1 := { s with ovsPorts := remaining }
      let tr1 : List Event := [.ovsDelPort "br-int" hostNicName]
      if e.linkLookupFails then some (.error .linkLookupFailed, s1, tr1)
      else
        match findLink s1.links none hostNicName with
        | none => some (.ok (), s1, tr1)
        | some hostLink =>
          if e.linkDelFails then some (.error .linkDeleteFailed, s1, tr1)
          else
            some (.ok (), { s1 with links := delPair s1.links hostLink.pairId },
                  tr1 ++ [.linkDel hostNicName])

/-- Well-formedness of the external state: every existing link has its
ifindex and pair id below the fresh counter (what the kernel guarantees
for a counter tracking allocation). -/
def wfState (s : SysState) : Bool :=
  s.links.all (fun l => l.idx < s.nextIdx && l.pairId < s.nextIdx)

/-- Events emitted by the two link-configuration subroutines: pure link
configuration, never a switch-port or link-deletion command. -/
def Event.isConfigOnly : Event → Bool
  | .setHardwareAddr _ _ => true
  | .setUp _ => true
  | .setNsFd _ _ => true
  | .setName _ _ => true
  | .addrAdd _ _ => true
  | _ => false

/-- Oracle in which every external call succeeds; the parse oracles
accept exactly the mac and CIDR of the spec's concrete scenario. -/
def benignEnv : Env :=
  { linkAddFails := false, ovsAddPortFails := false, setHostMacFails := false,
    setHostUpFails := false, getNSFails := false, setNsFdFails := false,
    enterNetnsFails := false, renameFails := false, addrAddFails := false,
    setContMacFails := false, setContUpFails := false, ovsDelPortFails := false,
    linkLookupFails := false, linkDelFails := false,
    parseMAC := fun m => if m = "02:11:22:33:44:55" then some 2 else none,
    parseAddr := fun a => if a = "10.0.0.5/24" then some 5 else none }

/-- Fresh external state: no links, no ports, one pod namespace. -/
def emptyState : SysState :=
  { links := [], ovsPorts := [], namespaces := ["/var/run/netns/pod1"], nextIdx := 0 }

/-- External state right after a successful provisioning of the spec's
concrete scenario. -/
def provisionedState : SysState :=
  { links := [⟨0, "abc123def456_h", 0, none, some 2, true, []⟩,
              ⟨1, "eth0", 0, some "/var/run/netns/pod1", some 2, true, [5]⟩],
    ovsPorts := [⟨"br-int", "abc123def456_h", "pod.ns"⟩],
    namespaces := ["/var/run/netns/pod1"], nextIdx := 2 }

/-- Trace of the successful provisioning of the concrete scenario. -/
def provisionTrace : List Event :=
  [.linkAdd "abc123def456_h" "abc123def456_c",
   .ovsAddPort "br-int" "abc123def456_h" "pod.ns",
   .setHardwareAddr 0 2, .setUp 0,
   .setNsFd 1 "/var/run/netns/pod1", .setName 1 "eth0",
   .addrAdd 1 5, .setHardwareAddr 1 2, .setUp 1]

/-- Oracle in which setting the host mac fails. -/
def hostMacFailEnv : Env := { benignEnv with setHostMacFails := true }

/-- State left by a provisioning attempt that failed after the switch
binding: pair rolled back, binding still present. -/
def orphanPortState : SysState :=
  { links := [], ovsPorts := [⟨"br-int", "abc123def456_h", "pod.ns"⟩],
    namespaces := ["/var/run/netns/pod1"], nextIdx := 2 }

/-- Trace of a provisioning attempt aborted right after the binding. -/
def rollbackTrace : List Event :=
  [.linkAdd "abc123def456_h" "abc123def456_c",
   .ovsAddPort "br-int" "abc123def456_h" "pod.ns",
   .linkDel "abc123def456_h"]

/-- Finding in an appended link table when the front part has no match. -/
theorem findLink_append_none (a b : List Link) (ns : Option String) (nm : String)
    (h : findLink a ns nm = none) :
    findLink (a ++ b) ns nm = findLink b ns nm := by
  unfold findLink at *
  rw [List.find?_append, h, Option.none_or]

/-- The two derived nic names: explicit values and distinctness. -/
theorem generateNicName_parts (containerID hn cn : String)
    (hgen : generateNicName containerID = some (hn, cn)) :
    hn = String.mk (containerID.data.take 12) ++ "_h" ∧
    cn = String.mk (containerID.data.take 12) ++ "_c" ∧ hn ≠ cn := by
  unfold generateNicName at hgen
  split at hgen
  · exact absurd hgen (by simp)
  · rw [Option.some_inj] at hgen
    obtain ⟨h1, h2⟩ := Prod.mk.injEq .. ▸ hgen
    refine ⟨h1.symm, h2.symm, ?_⟩
    intro hEq
    have : (String.mk (containerID.data.take 12) ++ "_h").data
         = (String.mk (containerID.data.take 12) ++ "_c").data := by
      rw [h1, h2, hEq]
    rw [String.data_append, String.data_append] at this
    have := List.append_cancel_left this
    simp at this


/-- A Boolean `isSome = false` fact, as a `none` equation. -/
theorem isSome_false_eq_none {α : Type} {o : Option α} (h : o.isSome = false) : o = none := by
  cases o
  · rfl
  · simp at h


/-- A netlink mutation addressed at the first element of the appended
pair hits only that element. -/
theorem updateLinks_pair_fst (ls : List Link) (h c : Link) (i : Nat) (f : Link → Link)
    (hh : h.idx = i) (hidx : ∀ l ∈ ls, l.idx ≠ i) (hcx : c.idx ≠ i) :
    updateLinks (ls ++ [h, c]) i f = ls ++ [f h, c] := by
  unfold updateLinks
  rw [List.map_append, List.map_congr_left (fun l hl => if_neg (hidx l hl)), List.map_id']
  simp [hh, hcx]

/-- A netlink mutation addressed at the second element of the appended
pair hits only that element. -/
theorem updateLinks_pair_snd (ls : List Link) (h c : Link) (i : Nat) (f : Link → Link)
    (hc : c.idx = i) (hidx : ∀ l ∈ ls, l.idx ≠ i) (hhx : h.idx ≠ i) :
    updateLinks (ls ++ [h, c]) i f = ls ++ [h, f c] := by
  unfold updateLinks
  rw [List.map_append, List.map_congr_left (fun l hl => if_neg (hidx l hl)), List.map_id']
  simp [hc, hhx]

/-- Shape of `configureHostNic` on a table ending in the fresh pair:
whatever the oracle decides, only the host end is touched, the emitted
events are pure link configuration, and on success the host end carries
the mac and is up. -/
theorem configureHostNic_shape (e : Env) (ls : List Link) (tr : List Event) (h c : Link)
    (nm : String) (m : Nat)
    (hnm : h.name = nm)
    (hfh : findLink ls none nm = none) (hhn : h.netns = none)
    (hidx : ∀ l ∈ ls, l.idx ≠ h.idx) (hcx : c.idx ≠ h.idx) :
    ∃ r h' ex,
      configureHostNic e (ls ++ [h, c]) tr nm m = (r, ls ++ [h', c], tr ++ ex) ∧
      h'.name = h.name ∧ h'.netns = h.netns ∧ h'.pairId = h.pairId ∧ h'.idx = h.idx ∧
      ex.all Event.isConfigOnly = true ∧
      (r = .ok () → h' = { h with mac := some m, up := true }) ∧
      (e.setHostMacFails = false → e.setHostUpFails = false → r = .ok ()) := by
  have hfind : findLink (ls ++ [h, c]) none nm = some h := by
    rw [findLink_append_none _ _ _ _ hfh]
    simp [findLink, List.find?, hhn, hnm]
  simp only [configureHostNic, hfind]
  by_cases h1 : e.setHostMacFails
  · simp only [h1, if_true]
    exact ⟨.error .hostSetMacFailed, h, [], by simp, rfl, rfl, rfl, rfl, rfl,
      (fun hk => Except.noConfusion hk), (fun hsm _ => Bool.noConfusion hsm)⟩
  · simp only [h1, Bool.false_eq_true, if_false,
      updateLinks_pair_fst ls h c h.idx _ rfl hidx hcx]
    by_cases h2 : e.setHostUpFails
    · simp only [h2, if_true]
      exact ⟨.error .hostSetUpFailed, { h with mac := some m }, [.setHardwareAddr h.idx m],
        by simp, rfl, rfl, rfl, rfl, rfl, (fun hk => Except.noConfusion hk), (fun _ hsu => Bool.noConfusion hsu)⟩
    · simp only [h2, Bool.false_eq_true, if_false]
      refine ⟨.ok (), { h with mac := some m, up := true },
        [.setHardwareAddr h.idx m, .setUp h.idx], ?_, rfl, rfl, rfl, rfl, rfl, fun _ => rfl,
        fun _ _ => rfl⟩
      rw [updateLinks_pair_fst ls { h with mac := some m } c h.idx _ rfl hidx hcx]
      simp

/-- Shape of `configureContainerNic` on a table ending in the fresh pair:
only the container end is touched, the emitted events are pure link
configuration, and on success the container end sits in the target
namespace as `eth0`, up, with the mac and the parsed address. -/
theorem configureContainerNic_shape (e : Env) (ls : List Link) (tr : List Event)
    (h c : Link) (cnm ipAddr : String) (m : Nat) (nsname : String)
    (hcnm : c.name = cnm)
    (hfc : findLink ls none cnm = none) (hcn : c.netns = none)
    (hne : h.name ≠ cnm)
    (hidx : ∀ l ∈ ls, l.idx ≠ c.idx) (hhx : h.idx ≠ c.idx) :
    ∃ r c' ex,
      configureContainerNic e (ls ++ [h, c]) tr cnm ipAddr m nsname = (r, ls ++ [h, c'], tr ++ ex) ∧
      c'.pairId = c.pairId ∧ c'.idx = c.idx ∧
      ex.all Event.isConfigOnly = true ∧
      (r = .ok () → ∃ a, e.parseAddr ipAddr = some a ∧
        c' = { c with netns := some nsname, name := "eth0", addrs := c.addrs ++ [a], mac := some m, up := true }) ∧
      (e.setNsFdFails = false → e.enterNetnsFails = false → e.renameFails = false →
        e.parseAddr ipAddr = none → r = .error .invalidAddr) := by
  have hb : (h.name == cnm) = false := beq_eq_false_iff_ne.mpr hne
  have hfind : findLink (ls ++ [h, c]) none cnm = some c := by
    rw [findLink_append_none _ _ _ _ hfc]
    simp [findLink, List.find?, hcn, hb, hcnm]
  simp only [configureContainerNic, hfind]
  by_cases h1 : e.setNsFdFails
  · simp only [h1, if_true]
    exact ⟨.error .setNsFdFailed, c, [], by simp, rfl, rfl, rfl, (fun hk => Except.noConfusion hk),
      (fun hsn _ _ _ => Bool.noConfusion hsn)⟩
  · simp only [h1, Bool.false_eq_true, if_false]
    rw [updateLinks_pair_snd ls h c c.idx _ rfl hidx hhx]
    by_cases h2 : e.enterNetnsFails
    · simp only [h2, if_true]
      exact ⟨.error .enterNetnsFailed, { c with netns := some nsname }, [.setNsFd c.idx nsname],
        by simp, rfl, rfl, rfl, (fun hk => Except.noConfusion hk), (fun _ hen _ _ => Bool.noConfusion hen)⟩
    · simp only [h2, Bool.false_eq_true, if_false]
      by_cases h3 : e.renameFails
      · simp only [h3, if_true]
        exact ⟨.error .renameFailed, { c with netns := some nsname }, [.setNsFd c.idx nsname],
          by simp, rfl, rfl, rfl, (fun hk => Except.noConfusion hk), (fun _ _ hrn _ => Bool.noConfusion hrn)⟩
      · simp only [h3, Bool.false_eq_true, if_false]
        rw [updateLinks_pair_snd ls h { c with netns := some nsname } c.idx _ rfl hidx hhx]
        cases h4 : e.parseAddr ipAddr with
        | none =>
          simp only [h4]
          exact ⟨.error .invalidAddr, { c with netns := some nsname, name := "eth0" },
            [.setNsFd c.idx nsname, .setName c.idx "eth0"],
            by simp, rfl, rfl, rfl, (fun hk => Except.noConfusion hk), (fun _ _ _ _ => rfl)⟩
        | some a =>
          simp only [h4]
          by_cases h5 : e.addrAddFails
          · simp only [h5, if_true]
            exact ⟨.error .addrAddFailed, { c with netns := some nsname, name := "eth0" },
              [.setNsFd c.idx nsname, .setName c.idx "eth0"],
              by simp, rfl, rfl, rfl, (fun hk => Except.noConfusion hk),
              (fun _ _ _ hip => Option.noConfusion hip)⟩
          · simp only [h5, Bool.false_eq_true, if_false]
            rw [updateLinks_pair_snd ls h { c with netns := some nsname, name := "eth0" } c.idx _ rfl hidx hhx]
            by_cases h6 : e.setContMacFails
            · simp only [h6, if_true]
              exact ⟨.error .containerSetMacFailed,
                { c with netns := some nsname, name := "eth0", addrs := c.addrs ++ [a] },
                [.setNsFd c.idx nsname, .setName c.idx "eth0", .addrAdd c.idx a],
                by simp, rfl, rfl, rfl, (fun hk => Except.noConfusion hk),
                (fun _ _ _ hip => Option.noConfusion hip)⟩
            · simp only [h6, Bool.false_eq_true, if_false]
              rw [updateLinks_pair_snd ls h
                { c with netns := some nsname, name := "eth0", addrs := c.addrs ++ [a] } c.idx _ rfl hidx hhx]
              by_cases h7 : e.setContUpFails
              · simp only [h7, if_true]
                exact ⟨.error .containerSetUpFailed,
                  { c with netns := some nsname, name := "eth0", addrs := c.addrs ++ [a], mac := some m },
                  [.setNsFd c.idx nsname, .setName c.idx "eth0", .addrAdd c.idx a, .setHardwareAddr c.idx m],
                  by simp, rfl, rfl, rfl, (fun hk => Except.noConfusion hk),
                  (fun _ _ _ hip => Option.noConfusion hip)⟩
              · simp only [h7, Bool.false_eq_true, if_false]
                refine ⟨.ok (),
                  { c with netns := some nsname, name := "eth0", addrs := c.addrs ++ [a], mac := some m, up := true },
                  [.setNsFd c.idx nsname, .setName c.idx "eth0", .addrAdd c.idx a,
                   .setHardwareAddr c.idx m, .setUp c.idx],
                  ?_, rfl, rfl, rfl, (fun _ => ⟨a, rfl, rfl⟩),
                  (fun _ _ _ hip => Option.noConfusion hip)⟩
                rw [updateLinks_pair_snd ls h
                  { c with netns := some nsname, name := "eth0", addrs := c.addrs ++ [a], mac := some m }
                  c.idx _ rfl hidx hhx]
                simp

/-- The deferred rollback on a table ending in the fresh pair removes
exactly the pair: the host end is found by name in the host namespace and
deleting it takes the peer with it. -/
theorem linkDelByName_append_pair (ls : List Link) (h c : Link) (nm : String) (n : Nat)
    (hfind : findLink ls none nm = none)
    (hhn : h.name = nm) (hhns : h.netns = none) (hhp : h.pairId = n) (hcp : c.pairId = n)
    (hwfp : ∀ l ∈ ls, l.pairId ≠ n) :
    linkDelByName (ls ++ [h, c]) nm = ls := by
  have hfind2 : findLink (ls ++ [h, c]) none nm = some h := by
    rw [findLink_append_none _ _ _ _ hfind]
    simp [findLink, List.find?, hhns, hhn]
  simp only [linkDelByName, hfind2, delPair, List.filter_append]
  rw [List.filter_eq_self.mpr (fun l hl => by simp [bne_iff_ne, hhp, hwfp l hl])]
  simp [hhp, hcp]

/-- Consequence of well-formedness: no live link carries the fresh index,
its successor, or the fresh pair id. -/
theorem wfState_fresh (s : SysState) (hwf : wfState s = true) :
    ∀ l ∈ s.links, l.idx ≠ s.nextIdx ∧ l.idx ≠ s.nextIdx + 1 ∧ l.pairId ≠ s.nextIdx := by
  intro l hl
  have := List.all_eq_true.mp hwf l hl
  simp only [Bool.and_eq_true, decide_eq_true_eq] at this
  omega

/-- Shape of the `configureNic` body once the veth pair has been created
and bound to the bridge: whatever the oracles decide afterwards, the
state is the original one plus the (possibly reconfigured) pair and the
bridge binding, the trace is pair creation and binding followed by pure
link-configuration events, and on success the two ends carry the parsed
mac, the host end is up in the host namespace, and the container end is
`eth0` in the target namespace with the parsed address. -/
theorem configureNicBody_shape (e : Env) (s : SysState) (pN pNS nsname hn cn mac ip : String)
    (hadd : e.linkAddFails = false)
    (hfh : findLink s.links none hn = none)
    (hfc : findLink s.links none cn = none)
    (hovs : e.ovsAddPortFails = false)
    (hwf : wfState s = true)
    (hne : hn ≠ cn) :
    ∃ r h' c' ex,
      configureNicBody e s pN pNS nsname hn cn mac ip =
        (r, { s with links := s.links ++ [h', c'], ovsPorts := s.ovsPorts ++ [⟨"br-int", hn, pN ++ "." ++ pNS⟩], nextIdx := s.nextIdx + 2 }, [.linkAdd hn cn, .ovsAddPort "br-int" hn (pN ++ "." ++ pNS)] ++ ex) ∧
      h'.name = hn ∧ h'.netns = none ∧ h'.pairId = s.nextIdx ∧ c'.pairId = s.nextIdx ∧
      ex.all Event.isConfigOnly = true ∧
      (r = .ok () → ∃ mA aA, e.parseMAC mac = some mA ∧ e.parseAddr ip = some aA ∧
        h' = ⟨s.nextIdx, hn, s.nextIdx, none, some mA, true, []⟩ ∧
        c' = ⟨s.nextIdx + 1, "eth0", s.nextIdx, some nsname, some mA, true, [aA]⟩) ∧
      (e.parseMAC mac = none → r = .error .invalidMac) ∧
      (∀ mA2, e.parseMAC mac = some mA2 → e.setHostMacFails = false → e.setHostUpFails = false →
        e.getNSFails = false → s.namespaces.contains nsname = true →
        e.setNsFdFails = false → e.enterNetnsFails = false → e.renameFails = false →
        e.parseAddr ip = none → r = .error .invalidAddr) := by
  have hfresh := wfState_fresh s hwf
  simp only [configureNicBody, hadd, hfh, hfc, Option.isSome_none, Bool.or_self,
    Bool.false_or, Bool.or_false, Bool.false_eq_true, if_false, hovs]
  cases hm : e.parseMAC mac with
  | none =>
    simp only []
    exact ⟨.error .invalidMac, ⟨s.nextIdx, hn, s.nextIdx, none, none, false, []⟩,
      ⟨s.nextIdx + 1, cn, s.nextIdx, none, none, false, []⟩, [],
      by simp, rfl, rfl, rfl, rfl, rfl, (fun hk => Except.noConfusion hk),
      (fun _ => rfl), (fun _ hmm _ _ _ _ _ _ _ _ => Option.noConfusion hmm)⟩
  | some mA =>
    simp only []
    obtain ⟨r1, h1, ex1, heq1, hname1, hns1, hpair1, hidx1, hcfg1, hok1, hpin1⟩ :=
      configureHostNic_shape e s.links
        ([Event.linkAdd hn cn] ++ [Event.ovsAddPort "br-int" hn (pN ++ "." ++ pNS)])
        ⟨s.nextIdx, hn, s.nextIdx, none, none, false, []⟩
        ⟨s.nextIdx + 1, cn, s.nextIdx, none, none, false, []⟩ hn mA rfl
        hfh rfl (fun l hl => (hfresh l hl).1)
        (by show s.nextIdx + 1 ≠ s.nextIdx; omega)
    cases r1 with
    | error k =>
      simp only [heq1]
      exact ⟨.error k, h1, ⟨s.nextIdx + 1, cn, s.nextIdx, none, none, false, []⟩, ex1,
        by simp, hname1, hns1, hpair1, rfl, hcfg1, (fun hk => Except.noConfusion hk),
        (fun hmm => Option.noConfusion hmm),
        (fun _ _ hsm hsu _ _ _ _ _ _ => Except.noConfusion (hpin1 hsm hsu))⟩
    | ok u =>
      cases u
      have hok1A := hok1 rfl
      simp only [heq1]
      cases hgf : e.getNSFails with
      | true =>
        simp only [hgf, Bool.true_or, if_true]
        exact ⟨.error .netnsOpenFailed, h1, ⟨s.nextIdx + 1, cn, s.nextIdx, none, none, false, []⟩, ex1,
          by simp, hname1, hns1, hpair1, rfl, hcfg1, (fun hk => Except.noConfusion hk),
          (fun hmm => Option.noConfusion hmm),
          (fun _ _ _ _ hg _ _ _ _ _ => Bool.noConfusion hg)⟩
      | false =>
        cases hgc : s.namespaces.contains nsname with
        | false =>
          simp only [hgf, hgc, Bool.false_or, Bool.not_false, if_true]
          exact ⟨.error .netnsOpenFailed, h1, ⟨s.nextIdx + 1, cn, s.nextIdx, none, none, false, []⟩, ex1,
            by simp, hname1, hns1, hpair1, rfl, hcfg1, (fun hk => Except.noConfusion hk),
            (fun hmm => Option.noConfusion hmm),
            (fun _ _ _ _ _ hc _ _ _ _ => Bool.noConfusion hc)⟩
        | true =>
          simp only [hgf, hgc, Bool.false_or, Bool.not_true, Bool.false_eq_true, if_false]
          obtain ⟨r2, c2, ex2, heq2, hpair2, hidx2, hcfg2, hok2, hpin2⟩ :=
            configureContainerNic_shape e s.links
              (([Event.linkAdd hn cn] ++ [Event.ovsAddPort "br-int" hn (pN ++ "." ++ pNS)]) ++ ex1)
              h1 ⟨s.nextIdx + 1, cn, s.nextIdx, none, none, false, []⟩ cn ip mA nsname rfl
              hfc rfl (by rw [hname1]; exact hne) (fun l hl => (hfresh l hl).2.1)
              (by rw [hidx1]; show s.nextIdx ≠ s.nextIdx + 1; omega)
          simp only [heq2]
          cases r2 with
          | error k2 =>
            exact ⟨.error k2, h1, c2, ex1 ++ ex2, by simp, hname1, hns1, hpair1, hpair2,
              by simp [List.all_append, hcfg1, hcfg2], (fun hk => Except.noConfusion hk),
              (fun hmm => Option.noConfusion hmm),
              (fun _ _ _ _ _ _ hsn hen hrn hip => hpin2 hsn hen hrn hip)⟩
          | ok u2 =>
            cases u2
            obtain ⟨aA, haA, hc2⟩ := hok2 rfl
            exact ⟨.ok (), h1, c2, ex1 ++ ex2, by simp, hname1, hns1, hpair1, hpair2,
              by simp [List.all_append, hcfg1, hcfg2],
              (fun _ => ⟨mA, aA, rfl, haA, hok1A, hc2⟩),
              (fun hmm => Option.noConfusion hmm),
              (fun _ _ _ _ _ _ hsn hen hrn hip => Except.noConfusion (hpin2 hsn hen hrn hip))⟩

/-- Claim C6: for every containerID of length at least 12,
`generateNicName` is deterministic, the two returned names are distinct,
both are the first 12 characters of the containerID followed by a fixed
role suffix, and in particular the host name for
"abc123def456ghi789" is "abc123def456_h". -/
theorem generateNicName_deterministic_distinct (containerID : String)
    (hlen : 12 ≤ containerID.length) :
    generateNicName containerID = generateNicName containerID ∧
    (∃ hn cn, generateNicName containerID = some (hn, cn) ∧ hn ≠ cn ∧
      hn = String.mk (containerID.data.take 12) ++ "_h" ∧
      cn = String.mk (containerID.data.take 12) ++ "_c") ∧
    generateNicName "abc123def456ghi789" = some ("abc123def456_h", "abc123def456_c") := by
  have hgen : generateNicName containerID =
      some (String.mk (containerID.data.take 12) ++ "_h",
            String.mk (containerID.data.take 12) ++ "_c") := by
    unfold generateNicName
    rw [if_neg (by omega)]
  obtain ⟨h1, h2, h3⟩ := generateNicName_parts _ _ _ hgen
  exact ⟨rfl, ⟨_, _, hgen, h3, h1, h2⟩, by decide⟩

/-- Claim C6 witness: the theorem applied to the concrete scenario id. -/
theorem generateNicName_deterministic_distinct_witness :
    12 ≤ ("abc123def456ghi789" : String).length ∧
    (generateNicName "abc123def456ghi789" = generateNicName "abc123def456ghi789" ∧
    (∃ hn cn, generateNicName "abc123def456ghi789" = some (hn, cn) ∧ hn ≠ cn ∧
      hn = String.mk (("abc123def456ghi789" : String).data.take 12) ++ "_h" ∧
      cn = String.mk (("abc123def456ghi789" : String).data.take 12) ++ "_c") ∧
    generateNicName "abc123def456ghi789" = some ("abc123def456_h", "abc123def456_c")) :=
  ⟨by decide, generateNicName_deterministic_distinct "abc123def456ghi789" (by decide)⟩

/-- Claim C10: for containerID of length at least 12 the 12-character
slice taken by `generateNicName` is in bounds and the function is total
(no panic, modelled as `Option.isSome`); the precondition is necessary:
an input shorter than 12 characters makes the slice out of range (the
panic, modelled as `none`). -/
theorem generateNicName_total (containerID : String) :
    (12 ≤ containerID.length → (generateNicName containerID).isSome = true) ∧
    generateNicName "short" = none := by
  constructor
  · intro hlen
    unfold generateNicName
    rw [if_neg (by omega)]
    rfl
  · decide

/-- Claim C10 witness: totality at the concrete scenario id. -/
theorem generateNicName_total_witness :
    (12 ≤ ("abc123def456ghi789" : String).length ∧
      (generateNicName "abc123def456ghi789").isSome = true) ∧
    generateNicName "short" = none :=
  ⟨⟨by decide, (generateNicName_total "abc123def456ghi789").1 (by decide)⟩,
   (generateNicName_total "short").2⟩

/-- Claim C9: `deleteNic` ignores its `netns` argument entirely: same
containerID and same external state give the identical result and
effects for any two namespace arguments. -/
theorem deleteNic_netns_irrelevant (e : Env) (s : SysState) (netns1 netns2 containerID : String) :
    deleteNic e s netns1 containerID = deleteNic e s netns2 containerID := rfl

/-- Claim C5 counterexample: on a containerID shorter than 12 characters
`deleteNic` does not return success even when no link named from it
exists (empty link table): the name derivation panics (`none`), so the
claim's universal quantification over every containerID fails. -/
theorem deleteNic_short_id_counterexample :
    emptyState.links = [] ∧
    deleteNic benignEnv emptyState "/var/run/netns/pod1" "abc" = none :=
  ⟨rfl, rfl⟩

/-- Claim C5 (amended with the length precondition the name derivation
needs): for every containerID of length at least 12, when no host-side
link named from it exists, `deleteNic` returns success and deletes no
link (the link table is untouched and the trace holds only the tolerant
port removal); and after any successful `deleteNic`, a second call again
returns success and deletes no link. -/
theorem deleteNic_idempotent (e : Env) (s : SysState) (netns containerID hn cn : String)
    (hgen : generateNicName containerID = some (hn, cn))
    (hovs : e.ovsDelPortFails = false)
    (hlook : e.linkLookupFails = false)
    (hdel : e.linkDelFails = false)
    (hu : ∀ l1 ∈ s.links, ∀ l2 ∈ s.links, l1.netns = none → l2.netns = none →
          l1.name = l2.name → l1 = l2) :
    (findLink s.links none hn = none →
      deleteNic e s netns containerID =
        some (.ok (), { s with ovsPorts := s.ovsPorts.filter (fun p => !(p.bridge == "br-int" && p.port == hn)) }, [.ovsDelPort "br-int" hn])) ∧
    (∀ s1 tr1, deleteNic e s netns containerID = some (.ok (), s1, tr1) →
      deleteNic e s1 netns containerID =
        some (.ok (), { s1 with ovsPorts := s1.ovsPorts.filter (fun p => !(p.bridge == "br-int" && p.port == hn)) }, [.ovsDelPort "br-int" hn])) := by
  constructor
  · intro habs
    simp only [deleteNic, hgen, hovs, hlook, Bool.false_eq_true, if_false, habs]
  · intro s1 tr1 h1run
    simp only [deleteNic, hgen, hovs, hlook, Bool.false_eq_true, if_false] at h1run
    cases hfind : findLink s.links none hn with
    | none =>
      rw [hfind] at h1run
      simp only [Option.some.injEq, Prod.mk.injEq] at h1run
      obtain ⟨-, hs1, -⟩ := h1run
      subst hs1
      simp only [deleteNic, hgen, hovs, hlook, Bool.false_eq_true, if_false, hfind]
    | some l =>
      rw [hfind] at h1run
      simp only [hdel, Bool.false_eq_true, if_false, Option.some.injEq, Prod.mk.injEq] at h1run
      obtain ⟨-, hs1, -⟩ := h1run
      have hfindR : s.links.find? (fun l2 => l2.netns == none && l2.name == hn) = some l := hfind
      have hlmem : l ∈ s.links := List.mem_of_find?_eq_some hfindR
      have hlp := List.find?_some hfindR
      simp only [Bool.and_eq_true, beq_iff_eq] at hlp
      have hnone : findLink (delPair s.links l.pairId) none hn = none := by
        unfold findLink delPair
        rw [List.find?_eq_none]
        intro x hx hpx
        have hxmem := List.mem_filter.mp hx
        simp only [Bool.and_eq_true, beq_iff_eq] at hpx
        have hxl : x = l := hu x hxmem.1 l hlmem hpx.1 hlp.1 (hpx.2.trans hlp.2.symm)
        rw [hxl] at hxmem
        simp [bne_iff_ne] at hxmem
      subst hs1
      simp only [deleteNic, hgen, hovs, hlook, Bool.false_eq_true, if_false, hnone]

/-- Claim C5 witness: the amended idempotence theorem applied to the
provisioned concrete state. -/
theorem deleteNic_idempotent_witness :
    (generateNicName "abc123def456ghi789" = some ("abc123def456_h", "abc123def456_c") ∧
     benignEnv.ovsDelPortFails = false ∧ benignEnv.linkLookupFails = false ∧
     benignEnv.linkDelFails = false ∧
     (∀ l1 ∈ provisionedState.links, ∀ l2 ∈ provisionedState.links,
        l1.netns = none → l2.netns = none → l1.name = l2.name → l1 = l2)) ∧
    ((findLink provisionedState.links none "abc123def456_h" = none →
      deleteNic benignEnv provisionedState "/var/run/netns/pod1" "abc123def456ghi789" =
        some (.ok (), { provisionedState with ovsPorts := provisionedState.ovsPorts.filter (fun p => !(p.bridge == "br-int" && p.port == "abc123def456_h")) }, [.ovsDelPort "br-int" "abc123def456_h"])) ∧
    (∀ s1 tr1, deleteNic benignEnv provisionedState "/var/run/netns/pod1" "abc123def456ghi789" = some (.ok (), s1, tr1) →
      deleteNic benignEnv s1 "/var/run/netns/pod1" "abc123def456ghi789" =
        some (.ok (), { s1 with ovsPorts := s1.ovsPorts.filter (fun p => !(p.bridge == "br-int" && p.port == "abc123def456_h")) }, [.ovsDelPort "br-int" "abc123def456_h"]))) :=
  ⟨⟨by decide, rfl, rfl, rfl, by decide⟩,
   deleteNic_idempotent benignEnv provisionedState "/var/run/netns/pod1" "abc123def456ghi789"
     "abc123def456_h" "abc123def456_c" (by decide) rfl rfl rfl (by decide)⟩

/-- Claim C7: in every execution of the namespace-scoped operation of
`configureContainerNic`, the rename to the fixed name `eth0` precedes
both the address assignment and the hardware-address assignment: if the
emitted trace contains an `addrAdd` or a `setHardwareAddr` event, the
`setName` event sits among the first two events and the other two do
not. -/
theorem configureContainerNic_rename_precedes (e : Env) (links : List Link)
    (nicName ipAddr : String) (macaddr : Nat) (nsname : String)
    (r : Except NicError Unit) (links' : List Link) (tr : List Event) (k a m : Nat)
    (hrun : configureContainerNic e links [] nicName ipAddr macaddr nsname = (r, links', tr)) :
    (Event.addrAdd k a ∈ tr → Event.setName k "eth0" ∈ tr.take 2 ∧ Event.addrAdd k a ∉ tr.take 2) ∧
    (Event.setHardwareAddr k m ∈ tr → Event.setName k "eth0" ∈ tr.take 2 ∧ Event.setHardwareAddr k m ∉ tr.take 2) := by
  simp only [configureContainerNic] at hrun
  iterate 8 (all_goals try split at hrun)
  all_goals simp only [Prod.mk.injEq] at hrun
  all_goals obtain ⟨-, -, rfl⟩ := hrun
  all_goals constructor <;> intro hmem <;> simp_all [List.take]

/-- `configureNic` body when the veth creation fails (kernel error or
name collision): it returns the creation error with nothing changed. -/
theorem configureNicBody_linkAdd_err (e : Env) (s : SysState)
    (pN pNS nsname hn cn mac ip : String)
    (hbad : (e.linkAddFails || (findLink s.links none hn).isSome
        || (findLink s.links none cn).isSome) = true) :
    configureNicBody e s pN pNS nsname hn cn mac ip = (.error .vethCreateFailed, s, []) := by
  simp [configureNicBody, hbad]

/-- `configureNic` body when the pair is created but the switch binding
fails: it returns the bind error with only the pair added. -/
theorem configureNicBody_bind_err (e : Env) (s : SysState)
    (pN pNS nsname hn cn mac ip : String)
    (hadd : e.linkAddFails = false)
    (hfh : findLink s.links none hn = none)
    (hfc : findLink s.links none cn = none)
    (hovs : e.ovsAddPortFails = true) :
    configureNicBody e s pN pNS nsname hn cn mac ip =
      (.error .switchBindFailed, { s with links := s.links ++ [⟨s.nextIdx, hn, s.nextIdx, none, none, false, []⟩, ⟨s.nextIdx + 1, cn, s.nextIdx, none, none, false, []⟩], nextIdx := s.nextIdx + 2 }, [.linkAdd hn cn]) := by
  simp [configureNicBody, hadd, hfh, hfc, hovs]

/-- Claim C2: when the mac does not parse (the parse happens after pair
creation and switch binding), `configureNic` returns the
`InvalidAddress` error for the mac, and the veth pair created earlier in
the same call has been deleted before the error returns: the link table
is exactly the original one, so neither nic name resolves. -/
theorem configureNic_invalid_mac (e : Env) (s : SysState)
    (podName podNamespace netns containerID mac ip hn cn : String)
    (hgen : generateNicName containerID = some (hn, cn))
    (hwf : wfState s = true)
    (hadd : e.linkAddFails = false)
    (hfh : findLink s.links none hn = none)
    (hfc : findLink s.links none cn = none)
    (hovs : e.ovsAddPortFails = false)
    (hmac : e.parseMAC mac = none) :
    ∃ s' tr,
      configureNic e s podName podNamespace netns containerID mac ip =
        some (.error .invalidMac, s', tr) ∧
      NicError.invalidMac.isInvalidAddress = true ∧
      s'.links = s.links ∧
      findLink s'.links none hn = none ∧ findLink s'.links none cn = none := by
  obtain ⟨-, -, hne⟩ := generateNicName_parts _ _ _ hgen
  obtain ⟨r, h', c', ex, heqB, hname, hnsn, hpr, hcp, hcfg, hok, hpinN, hpinA⟩ :=
    configureNicBody_shape e s podName podNamespace netns hn cn mac ip hadd hfh hfc hovs hwf hne
  have hr := hpinN hmac
  subst hr
  have hroll : linkDelByName (s.links ++ [h', c']) hn = s.links :=
    linkDelByName_append_pair s.links h' c' hn s.nextIdx hfh hname hnsn hpr hcp
      (fun l hl => ((wfState_fresh s hwf) l hl).2.2)
  refine ⟨{ s with links := s.links, ovsPorts := s.ovsPorts ++ [⟨"br-int", hn, podName ++ "." ++ podNamespace⟩], nextIdx := s.nextIdx + 2 },
    ([.linkAdd hn cn, .ovsAddPort "br-int" hn (podName ++ "." ++ podNamespace)] ++ ex) ++ [.linkDel hn],
    ?_, rfl, rfl, hfh, hfc⟩
  simp [configureNic, hgen, heqB, hroll]

/-- Claim C3: when the ip does not parse — a failure that happens inside
the target namespace, after the container end has been moved and renamed
— `configureNic` still rolls back fully: it returns the address error
and the link table is exactly the original one. -/
theorem configureNic_invalid_ip (e : Env) (s : SysState)
    (podName podNamespace netns containerID mac ip hn cn : String) (mA : Nat)
    (hgen : generateNicName containerID = some (hn, cn))
    (hwf : wfState s = true)
    (hadd : e.linkAddFails = false)
    (hfh : findLink s.links none hn = none)
    (hfc : findLink s.links none cn = none)
    (hovs : e.ovsAddPortFails = false)
    (hmac : e.parseMAC mac = some mA)
    (hsm : e.setHostMacFails = false) (hsu : e.setHostUpFails = false)
    (hgf : e.getNSFails = false) (hcont : s.namespaces.contains netns = true)
    (hsn : e.setNsFdFails = false) (hen : e.enterNetnsFails = false)
    (hrn : e.renameFails = false)
    (hip : e.parseAddr ip = none) :
    ∃ s' tr,
      configureNic e s podName podNamespace netns containerID mac ip =
        some (.error .invalidAddr, s', tr) ∧
      NicError.invalidAddr.isInvalidAddress = true ∧
      s'.links = s.links ∧
      findLink s'.links none hn = none ∧ findLink s'.links none cn = none := by
  obtain ⟨-, -, hne⟩ := generateNicName_parts _ _ _ hgen
  obtain ⟨r, h', c', ex, heqB, hname, hnsn, hpr, hcp, hcfg, hok, hpinN, hpinA⟩ :=
    configureNicBody_shape e s podName podNamespace netns hn cn mac ip hadd hfh hfc hovs hwf hne
  have hr := hpinA mA hmac hsm hsu hgf hcont hsn hen hrn hip
  subst hr
  have hroll : linkDelByName (s.links ++ [h', c']) hn = s.links :=
    linkDelByName_append_pair s.links h' c' hn s.nextIdx hfh hname hnsn hpr hcp
      (fun l hl => ((wfState_fresh s hwf) l hl).2.2)
  refine ⟨{ s with links := s.links, ovsPorts := s.ovsPorts ++ [⟨"br-int", hn, podName ++ "." ++ podNamespace⟩], nextIdx := s.nextIdx + 2 },
    ([.linkAdd hn cn, .ovsAddPort "br-int" hn (podName ++ "." ++ podNamespace)] ++ ex) ++ [.linkDel hn],
    ?_, rfl, rfl, hfh, hfc⟩
  simp [configureNic, hgen, heqB, hroll]

/-- Claim C4: when `configureNic` fails after the switch-port binding
succeeded, the automatic rollback deletes the link pair only: the link
table returns to exactly its original content, the binding on the
integration bridge is still present (nothing else changed in the port
table), and no del-port command appears anywhere in the trace. -/
theorem configureNic_rollback_frame (e : Env) (s : SysState)
    (podName podNamespace netns containerID mac ip hn cn : String)
    (k : NicError) (s' : SysState) (tr : List Event)
    (hgen : generateNicName containerID = some (hn, cn))
    (hwf : wfState s = true)
    (hadd : e.linkAddFails = false)
    (hfh : findLink s.links none hn = none)
    (hfc : findLink s.links none cn = none)
    (hovs : e.ovsAddPortFails = false)
    (hrun : configureNic e s podName podNamespace netns containerID mac ip =
      some (.error k, s', tr)) :
    s'.links = s.links ∧
    s'.ovsPorts = s.ovsPorts ++ [⟨"br-int", hn, podName ++ "." ++ podNamespace⟩] ∧
    (∀ b p, Event.ovsDelPort b p ∉ tr) := by
  obtain ⟨-, -, hne⟩ := generateNicName_parts _ _ _ hgen
  obtain ⟨r, h', c', ex, heqB, hname, hnsn, hpr, hcp, hcfg, hok, hpinN, hpinA⟩ :=
    configureNicBody_shape e s podName podNamespace netns hn cn mac ip hadd hfh hfc hovs hwf hne
  have hroll : linkDelByName (s.links ++ [h', c']) hn = s.links :=
    linkDelByName_append_pair s.links h' c' hn s.nextIdx hfh hname hnsn hpr hcp
      (fun l hl => ((wfState_fresh s hwf) l hl).2.2)
  simp only [configureNic, hgen, heqB] at hrun
  cases r with
  | ok u =>
    cases u
    simp only [] at hrun
    exact absurd hrun (by simp)
  | error k2 =>
    simp only [] at hrun
    simp only [Option.some.injEq, Prod.mk.injEq] at hrun
    obtain ⟨hk, hs', htr⟩ := hrun
    subst hs'
    subst htr
    refine ⟨hroll, rfl, ?_⟩
    intro b p hmem
    simp only [List.mem_append, List.mem_cons, List.not_mem_nil, or_false] at hmem
    rcases hmem with ((hmem | hmem) | hmem) | hmem
    · exact Event.noConfusion hmem
    · exact Event.noConfusion hmem
    · have hconf := List.all_eq_true.mp hcfg _ hmem
      simp [Event.isConfigOnly] at hconf
    · exact Event.noConfusion hmem

/-- Claim C8: every switch-port add issued by `configureNic` binds the
host-side port on the integration bridge `br-int` and tags it with
exactly `podName ++ "." ++ podNamespace`; on success that binding is in
the port table. -/
theorem configureNic_owner_tag (e : Env) (s : SysState)
    (podName podNamespace netns containerID mac ip hn cn : String)
    (r : Except NicError Unit) (s' : SysState) (tr : List Event)
    (hgen : generateNicName containerID = some (hn, cn))
    (hwf : wfState s = true)
    (hrun : configureNic e s podName podNamespace netns containerID mac ip = some (r, s', tr)) :
    (∀ b p t, Event.ovsAddPort b p t ∈ tr →
      b = "br-int" ∧ p = hn ∧ t = podName ++ "." ++ podNamespace) ∧
    (r = .ok () → OvsPort.mk "br-int" hn (podName ++ "." ++ podNamespace) ∈ s'.ovsPorts) := by
  obtain ⟨-, -, hne⟩ := generateNicName_parts _ _ _ hgen
  by_cases hbad : (e.linkAddFails || (findLink s.links none hn).isSome
      || (findLink s.links none cn).isSome) = true
  · have hbody := configureNicBody_linkAdd_err e s podName podNamespace netns hn cn mac ip hbad
    simp only [configureNic, hgen, hbody] at hrun
    simp only [Option.some.injEq, Prod.mk.injEq] at hrun
    obtain ⟨hr, hs', htr⟩ := hrun
    subst hs'
    subst htr
    constructor
    · intro b p t hmem
      simp at hmem
    · intro hok
      rw [← hr] at hok
      exact Except.noConfusion hok
  · have hgood := eq_false_of_ne_true hbad
    simp only [Bool.or_eq_false_iff] at hgood
    obtain ⟨⟨hadd, hfh⟩, hfc⟩ := hgood
    replace hfh := isSome_false_eq_none hfh
    replace hfc := isSome_false_eq_none hfc
    by_cases hovs : e.ovsAddPortFails = true
    · have hbody := configureNicBody_bind_err e s podName podNamespace netns hn cn mac ip
        hadd hfh hfc hovs
      simp only [configureNic, hgen, hbody] at hrun
      simp only [Option.some.injEq, Prod.mk.injEq] at hrun
      obtain ⟨hr, hs', htr⟩ := hrun
      subst hs'
      subst htr
      constructor
      · intro b p t hmem
        simp only [List.mem_append, List.mem_cons, List.not_mem_nil, or_false] at hmem
        rcases hmem with hmem | hmem
        · exact Event.noConfusion hmem
        · exact Event.noConfusion hmem
      · intro hok
        rw [← hr] at hok
        exact Except.noConfusion hok
    · have hovs2 := eq_false_of_ne_true hovs
      obtain ⟨rB, h', c', ex, heqB, hname, hnsn, hpr, hcp, hcfg, hok, hpinN, hpinA⟩ :=
        configureNicBody_shape e s podName podNamespace netns hn cn mac ip hadd hfh hfc hovs2 hwf hne
      simp only [configureNic, hgen, heqB] at hrun
      cases rB with
      | error k2 =>
        simp only [] at hrun
        simp only [Option.some.injEq, Prod.mk.injEq] at hrun
        obtain ⟨hr, hs', htr⟩ := hrun
        subst hs'
        subst htr
        constructor
        · intro b p t hmem
          simp only [List.mem_append, List.mem_cons, List.not_mem_nil, or_false] at hmem
          rcases hmem with ((hmem | hmem) | hmem) | hmem
          · exact Event.noConfusion hmem
          · obtain ⟨hb, hp, ht⟩ := Event.ovsAddPort.inj hmem
            exact ⟨hb, hp, ht⟩
          · have hconf := List.all_eq_true.mp hcfg _ hmem
            simp [Event.isConfigOnly] at hconf
          · exact Event.noConfusion hmem
        · intro hok2
          rw [← hr] at hok2
          exact Except.noConfusion hok2
      | ok u =>
        cases u
        simp only [] at hrun
        simp only [Option.some.injEq, Prod.mk.injEq] at hrun
        obtain ⟨hr, hs', htr⟩ := hrun
        subst hs'
        subst htr
        constructor
        · intro b p t hmem
          simp only [List.mem_append, List.mem_cons, List.not_mem_nil, or_false] at hmem
          rcases hmem with (hmem | hmem) | hmem
          · exact Event.noConfusion hmem
          · obtain ⟨hb, hp, ht⟩ := Event.ovsAddPort.inj hmem
            exact ⟨hb, hp, ht⟩
          · have hconf := List.all_eq_true.mp hcfg _ hmem
            simp [Event.isConfigOnly] at hconf
        · intro _
          simp

/-- Claim C1: for every call to `configureNic` that returns success, the
mac and ip parsed, the host-side interface exists in the host namespace,
is up, carries the parsed mac, and its port is bound on `br-int` with
the ownership tag; and the container-side interface exists in the target
namespace, is named `eth0`, is up, carries the same mac, and has the
parsed address assigned. -/
theorem configureNic_success_postcondition (e : Env) (s : SysState)
    (podName podNamespace netns containerID mac ip hn cn : String)
    (s' : SysState) (tr : List Event)
    (hgen : generateNicName containerID = some (hn, cn))
    (hwf : wfState s = true)
    (hrun : configureNic e s podName podNamespace netns containerID mac ip =
      some (.ok (), s', tr)) :
    ∃ mA aA, e.parseMAC mac = some mA ∧ e.parseAddr ip = some aA ∧
      (∃ hl, hl ∈ s'.links ∧ hl.netns = none ∧ hl.name = hn ∧ hl.up = true ∧ hl.mac = some mA) ∧
      OvsPort.mk "br-int" hn (podName ++ "." ++ podNamespace) ∈ s'.ovsPorts ∧
      (∃ cl, cl ∈ s'.links ∧ cl.netns = some netns ∧ cl.name = "eth0" ∧ cl.up = true ∧
        cl.mac = some mA ∧ aA ∈ cl.addrs) := by
  obtain ⟨-, -, hne⟩ := generateNicName_parts _ _ _ hgen
  by_cases hbad : (e.linkAddFails || (findLink s.links none hn).isSome
      || (findLink s.links none cn).isSome) = true
  · have hbody := configureNicBody_linkAdd_err e s podName podNamespace netns hn cn mac ip hbad
    simp only [configureNic, hgen, hbody] at hrun
    exact absurd hrun (by simp)
  · have hgood := eq_false_of_ne_true hbad
    simp only [Bool.or_eq_false_iff] at hgood
    obtain ⟨⟨hadd, hfh⟩, hfc⟩ := hgood
    replace hfh := isSome_false_eq_none hfh
    replace hfc := isSome_false_eq_none hfc
    by_cases hovs : e.ovsAddPortFails = true
    · have hbody := configureNicBody_bind_err e s podName podNamespace netns hn cn mac ip
        hadd hfh hfc hovs
      simp only [configureNic, hgen, hbody] at hrun
      exact absurd hrun (by simp)
    · have hovs2 := eq_false_of_ne_true hovs
      obtain ⟨rB, h', c', ex, heqB, hname, hnsn, hpr, hcp, hcfg, hok, hpinN, hpinA⟩ :=
        configureNicBody_shape e s podName podNamespace netns hn cn mac ip hadd hfh hfc hovs2 hwf hne
      simp only [configureNic, hgen, heqB] at hrun
      cases rB with
      | error k2 =>
        simp only [] at hrun
        exact absurd hrun (by simp)
      | ok u =>
        cases u
        simp only [] at hrun
        simp only [Option.some.injEq, Prod.mk.injEq] at hrun
        obtain ⟨-, hs', htr⟩ := hrun
        subst hs'
        obtain ⟨mA, aA, hmA, haA, hh', hc'⟩ := hok rfl
        subst hh'
        subst hc'
        refine ⟨mA, aA, hmA, haA,
          ⟨⟨s.nextIdx, hn, s.nextIdx, none, some mA, true, []⟩, by simp, rfl, rfl, rfl, rfl⟩,
          by simp,
          ⟨⟨s.nextIdx + 1, "eth0", s.nextIdx, some netns, some mA, true, [aA]⟩, by simp, rfl, rfl, rfl, rfl, by simp⟩⟩

/-- Claim C1 witness: the success postcondition at the concrete scenario. -/
theorem configureNic_success_postcondition_witness :
    (generateNicName "abc123def456ghi789" = some ("abc123def456_h", "abc123def456_c") ∧
     wfState emptyState = true ∧
     configureNic benignEnv emptyState "pod" "ns" "/var/run/netns/pod1" "abc123def456ghi789"
       "02:11:22:33:44:55" "10.0.0.5/24" = some (.ok (), provisionedState, provisionTrace)) ∧
    (∃ mA aA, benignEnv.parseMAC "02:11:22:33:44:55" = some mA ∧
      benignEnv.parseAddr "10.0.0.5/24" = some aA ∧
      (∃ hl, hl ∈ provisionedState.links ∧ hl.netns = none ∧ hl.name = "abc123def456_h" ∧
        hl.up = true ∧ hl.mac = some mA) ∧
      OvsPort.mk "br-int" "abc123def456_h" ("pod" ++ "." ++ "ns") ∈ provisionedState.ovsPorts ∧
      (∃ cl, cl ∈ provisionedState.links ∧ cl.netns = some "/var/run/netns/pod1" ∧
        cl.name = "eth0" ∧ cl.up = true ∧ cl.mac = some mA ∧ aA ∈ cl.addrs)) :=
  ⟨⟨by decide, by decide, rfl⟩,
   configureNic_success_postcondition benignEnv emptyState "pod" "ns" "/var/run/netns/pod1"
     "abc123def456ghi789" "02:11:22:33:44:55" "10.0.0.5/24" "abc123def456_h" "abc123def456_c"
     provisionedState provisionTrace (by decide) (by decide) rfl⟩

/-- Claim C2 witness: malformed mac at the concrete scenario. -/
theorem configureNic_invalid_mac_witness :
    (generateNicName "abc123def456ghi789" = some ("abc123def456_h", "abc123def456_c") ∧
     wfState emptyState = true ∧ benignEnv.linkAddFails = false ∧
     findLink emptyState.links none "abc123def456_h" = none ∧
     findLink emptyState.links none "abc123def456_c" = none ∧
     benignEnv.ovsAddPortFails = false ∧ benignEnv.parseMAC "not-a-mac" = none) ∧
    (∃ s' tr,
      configureNic benignEnv emptyState "pod" "ns" "/var/run/netns/pod1" "abc123def456ghi789"
        "not-a-mac" "10.0.0.5/24" = some (.error .invalidMac, s', tr) ∧
      NicError.invalidMac.isInvalidAddress = true ∧
      s'.links = emptyState.links ∧
      findLink s'.links none "abc123def456_h" = none ∧
      findLink s'.links none "abc123def456_c" = none) :=
  ⟨⟨by decide, by decide, rfl, rfl, rfl, rfl, by decide⟩,
   configureNic_invalid_mac benignEnv emptyState "pod" "ns" "/var/run/netns/pod1"
     "abc123def456ghi789" "not-a-mac" "10.0.0.5/24" "abc123def456_h" "abc123def456_c"
     (by decide) (by decide) rfl rfl rfl rfl (by decide)⟩

/-- Claim C3 witness: malformed ip at the concrete scenario. -/
theorem configureNic_invalid_ip_witness :
    (generateNicName "abc123def456ghi789" = some ("abc123def456_h", "abc123def456_c") ∧
     wfState emptyState = true ∧
     benignEnv.parseMAC "02:11:22:33:44:55" = some 2 ∧
     emptyState.namespaces.contains "/var/run/netns/pod1" = true ∧
     benignEnv.parseAddr "bad-ip" = none) ∧
    (∃ s' tr,
      configureNic benignEnv emptyState "pod" "ns" "/var/run/netns/pod1" "abc123def456ghi789"
        "02:11:22:33:44:55" "bad-ip" = some (.error .invalidAddr, s', tr) ∧
      NicError.invalidAddr.isInvalidAddress = true ∧
      s'.links = emptyState.links ∧
      findLink s'.links none "abc123def456_h" = none ∧
      findLink s'.links none "abc123def456_c" = none) :=
  ⟨⟨by decide, by decide, by decide, by decide, by decide⟩,
   configureNic_invalid_ip benignEnv emptyState "pod" "ns" "/var/run/netns/pod1"
     "abc123def456ghi789" "02:11:22:33:44:55" "bad-ip" "abc123def456_h" "abc123def456_c" 2
     (by decide) (by decide) rfl rfl rfl rfl (by decide) rfl rfl rfl (by decide)
     rfl rfl rfl (by decide)⟩

/-- Claim C4 witness: a failure right after the binding (host mac set
fails) rolls back the pair, keeps the binding, and issues no del-port. -/
theorem configureNic_rollback_frame_witness :
    (generateNicName "abc123def456ghi789" = some ("abc123def456_h", "abc123def456_c") ∧
     wfState emptyState = true ∧ hostMacFailEnv.linkAddFails = false ∧
     hostMacFailEnv.ovsAddPortFails = false ∧
     configureNic hostMacFailEnv emptyState "pod" "ns" "/var/run/netns/pod1" "abc123def456ghi789"
       "02:11:22:33:44:55" "10.0.0.5/24" =
         some (.error .hostSetMacFailed, orphanPortState, rollbackTrace)) ∧
    (orphanPortState.links = emptyState.links ∧
     orphanPortState.ovsPorts =
       emptyState.ovsPorts ++ [⟨"br-int", "abc123def456_h", "pod" ++ "." ++ "ns"⟩] ∧
     (∀ b p, Event.ovsDelPort b p ∉ rollbackTrace)) :=
  ⟨⟨by decide, by decide, rfl, rfl, rfl⟩,
   configureNic_rollback_frame hostMacFailEnv emptyState "pod" "ns" "/var/run/netns/pod1"
     "abc123def456ghi789" "02:11:22:33:44:55" "10.0.0.5/24" "abc123def456_h" "abc123def456_c"
     .hostSetMacFailed orphanPortState rollbackTrace
     (by decide) (by decide) rfl rfl rfl rfl rfl⟩

/-- Claim C7 witness: the namespace-scoped operation on the concrete
container end renames before assigning the address and the mac. -/
theorem configureContainerNic_rename_precedes_witness :
    (configureContainerNic benignEnv [⟨1, "abc123def456_c", 0, none, none, false, []⟩] []
      "abc123def456_c" "10.0.0.5/24" 2 "/var/run/netns/pod1" =
        (.ok (), [⟨1, "eth0", 0, some "/var/run/netns/pod1", some 2, true, [5]⟩],
          [.setNsFd 1 "/var/run/netns/pod1", .setName 1 "eth0", .addrAdd 1 5,
           .setHardwareAddr 1 2, .setUp 1])) ∧
    ((Event.addrAdd 1 5 ∈ ([.setNsFd 1 "/var/run/netns/pod1", .setName 1 "eth0", .addrAdd 1 5, .setHardwareAddr 1 2, .setUp 1] : List Event) →
        Event.setName 1 "eth0" ∈ ([.setNsFd 1 "/var/run/netns/pod1", .setName 1 "eth0", .addrAdd 1 5, .setHardwareAddr 1 2, .setUp 1] : List Event).take 2 ∧
        Event.addrAdd 1 5 ∉ ([.setNsFd 1 "/var/run/netns/pod1", .setName 1 "eth0", .addrAdd 1 5, .setHardwareAddr 1 2, .setUp 1] : List Event).take 2) ∧
     (Event.setHardwareAddr 1 2 ∈ ([.setNsFd 1 "/var/run/netns/pod1", .setName 1 "eth0", .addrAdd 1 5, .setHardwareAddr 1 2, .setUp 1] : List Event) →
        Event.setName 1 "eth0" ∈ ([.setNsFd 1 "/var/run/netns/pod1", .setName 1 "eth0", .addrAdd 1 5, .setHardwareAddr 1 2, .setUp 1] : List Event).take 2 ∧
        Event.setHardwareAddr 1 2 ∉ ([.setNsFd 1 "/var/run/netns/pod1", .setName 1 "eth0", .addrAdd 1 5, .setHardwareAddr 1 2, .setUp 1] : List Event).take 2)) :=
  ⟨rfl,
   configureContainerNic_rename_precedes benignEnv
     [⟨1, "abc123def456_c", 0, none, none, false, []⟩] "abc123def456_c" "10.0.0.5/24" 2
     "/var/run/netns/pod1" (.ok ())
     [⟨1, "eth0", 0, some "/var/run/netns/pod1", some 2, true, [5]⟩]
     [.setNsFd 1 "/var/run/netns/pod1", .setName 1 "eth0", .addrAdd 1 5,
      .setHardwareAddr 1 2, .setUp 1] 1 5 2 rfl⟩

/-- Claim C8 witness: the ownership tag at the concrete scenario. -/
theorem configureNic_owner_tag_witness :
    (generateNicName "abc123def456ghi789" = some ("abc123def456_h", "abc123def456_c") ∧
     wfState emptyState = true ∧
     configureNic benignEnv emptyState "pod" "ns" "/var/run/netns/pod1" "abc123def456ghi789"
       "02:11:22:33:44:55" "10.0.0.5/24" = some (.ok (), provisionedState, provisionTrace)) ∧
    ((∀ b p t, Event.ovsAddPort b p t ∈ provisionTrace →
        b = "br-int" ∧ p = "abc123def456_h" ∧ t = "pod" ++ "." ++ "ns") ∧
     ((.ok () : Except NicError Unit) = .ok () →
        OvsPort.mk "br-int" "abc123def456_h" ("pod" ++ "." ++ "ns") ∈ provisionedState.ovsPorts)) :=
  ⟨⟨by decide, by decide, rfl⟩,
   configureNic_owner_tag benignEnv emptyState "pod" "ns" "/var/run/netns/pod1"
     "abc123def456ghi789" "02:11:22:33:44:55" "10.0.0.5/24" "abc123def456_h" "abc123def456_c"
     (.ok ()) provisionedState provisionTrace (by decide) (by decide) rfl⟩

end Daemon
